import Mathlib

/-!
Verification of the DreamQuest client-side media pipeline.

Shallow embedding of the media composition and export pipeline of the
repository (src/App.tsx, src/components/GameInterface.tsx): the base64
codec used by the browser primitives atob/btoa, the WAV encoder
(pcmToWav), the raw 16-bit PCM decoders (decodeAudioForVideo,
decodeBase64 + decodeAudioData), the per-scene duration logic of the video
renderer (handleDownloadVideo), the storybook exporter (generateStorybook),
the voice playback controller (the [currentAudio, voiceEnabled] effect and
toggleVoice), and the ambient drone synthesizer (AmbientDrone).

Bytes are modelled as natural numbers below 256, base64 text as lists of
characters, audio sample values as exact rationals (every 16-bit sample
divided by 32768 is a dyadic rational, represented exactly by the
JavaScript doubles the code produces).
-/

/-! ## Base64 (the browser primitives atob and btoa)

btoa maps each 3-byte group to 4 alphabet characters and pads the final
1- or 2-byte group with =.  atob implements forgiving-base64: each 4-char
group yields 3 bytes, a trailing group of 2 or 3 characters (or a padded
4-char group) yields 1 or 2 bytes, anything else throws
InvalidCharacterError (modelled as none). -/

/-- The standard base64 alphabet, in value order. -/
def b64Alphabet : List Char :=
  ("ABCDEFGHIJKLMNOPQRSTUVWXYZabcdefghijklmnopqrstuvwxyz0123456789+/").toList

/-- Character for a 6-bit value (used by btoa). -/
def b64Char (v : Nat) : Char := b64Alphabet.getD v 'A'

/-- 6-bit value of a character, none when the character is not in the
alphabet (atob throws there). -/
def b64Val (c : Char) : Option Nat :=
  let i := b64Alphabet.findIdx (fun x => x == c)
  if i < 64 then some i else none

/-- btoa: bytes to base64 characters, 3 bytes per 4-character group,
= padding on a final short group. -/
def b64EncodeBytes : List Nat → List Char
  | [] => []
  | [b0] => [b64Char (b0 / 4), b64Char (b0 % 4 * 16), '=', '=']
  | [b0, b1] => [b64Char (b0 / 4), b64Char (b0 % 4 * 16 + b1 / 16), b64Char (b1 % 16 * 4), '=']
  | b0 :: b1 :: b2 :: rest =>
      b64Char (b0 / 4) :: b64Char (b0 % 4 * 16 + b1 / 16) ::
      b64Char (b1 % 16 * 4 + b2 / 64) :: b64Char (b2 % 64) ::
      b64EncodeBytes rest

/-- atob: base64 characters to bytes, none on malformed input
(wrong length, a character outside the alphabet, or misplaced padding). -/
def b64DecodeGroups : List Char → Option (List Nat)
  | [] => some []
  | [_] => none
  | [c0, c1] =>
      match b64Val c0, b64Val c1 with
      | some s0, some s1 => some [s0 * 4 + s1 / 16]
      | _, _ => none
  | [c0, c1, c2] =>
      match b64Val c0, b64Val c1, b64Val c2 with
      | some s0, some s1, some s2 => some [s0 * 4 + s1 / 16, s1 % 16 * 16 + s2 / 4]
      | _, _, _ => none
  | c0 :: c1 :: c2 :: c3 :: rest =>
      match b64Val c0, b64Val c1 with
      | some s0, some s1 =>
          if c2 = '=' then
            if c3 = '=' ∧ rest = [] then some [s0 * 4 + s1 / 16] else none
          else
            match b64Val c2 with
            | some s2 =>
                if c3 = '=' then
                  if rest = [] then some [s0 * 4 + s1 / 16, s1 % 16 * 16 + s2 / 4] else none
                else
                  match b64Val c3, b64DecodeGroups rest with
                  | some s3, some bs =>
                      some ((s0 * 4 + s1 / 16) :: (s1 % 16 * 16 + s2 / 4) :: (s2 % 4 * 64 + s3) :: bs)
                  | _, _ => none
            | none => none
      | _, _ => none

/-! ## WAV encoder (pcmToWav in src/App.tsx)

pcmToWav decodes the base64 PCM clip with atob, allocates a 44 + len byte
buffer, writes the canonical RIFF/WAVE header with little-endian
setUint16/setUint32 calls, copies the payload after the header, and
re-encodes the whole buffer with btoa (the chunked String.fromCharCode
loop concatenates consecutive 8192-byte slices, which is the identity on
the byte sequence). -/

/-- The 44 header bytes written by pcmToWav, in offset order: the
writeString / setUint16 / setUint32 (little-endian) calls of the source,
with multi-byte values split into bytes. -/
def wavHeader (len sampleRate : Nat) : List Nat :=
  [82, 73, 70, 70,                                                   -- offset 0: "RIFF"
   (36 + len) % 256, (36 + len) / 256 % 256,
   (36 + len) / 65536 % 256, (36 + len) / 16777216 % 256,            -- offset 4: 36 + len
   87, 65, 86, 69,                                                   -- offset 8: "WAVE"
   102, 109, 116, 32,                                                -- offset 12: "fmt "
   16, 0, 0, 0,                                                      -- offset 16: fmt size
   1, 0,                                                             -- offset 20: PCM
   1, 0,                                                             -- offset 22: mono
   sampleRate % 256, sampleRate / 256 % 256,
   sampleRate / 65536 % 256, sampleRate / 16777216 % 256,            -- offset 24
   sampleRate * 2 % 256, sampleRate * 2 / 256 % 256,
   sampleRate * 2 / 65536 % 256, sampleRate * 2 / 16777216 % 256,    -- offset 28: byte rate
   2, 0,                                                             -- offset 32: block align
   16, 0,                                                            -- offset 34: bits
   100, 97, 116, 97,                                                 -- offset 36: "data"
   len % 256, len / 256 % 256, len / 65536 % 256, len / 16777216 % 256]

/-- pcmToWav: none when atob throws on the input, otherwise the base64
re-encoding of header plus unmodified payload. -/
def pcmToWav (pcmBase64 : List Char) (sampleRate : Nat) : Option (List Char) :=
  match b64DecodeGroups pcmBase64 with
  | none => none
  | some pcm => some (b64EncodeBytes (wavHeader pcm.length sampleRate ++ pcm))

/-- ASCII byte values of a string, as JavaScript charCodeAt produces for
the header tags. -/
def asciiBytes (s : String) : List Nat := s.toList.map Char.toNat

/-- Little-endian readback of a byte sequence, used to state what a
standard WAV reader computes from a header field. -/
def leNat : List Nat → Nat
  | [] => 0
  | b :: t => b + 256 * leNat t


/-! ## PCM decoders

decodeAudioForVideo (src/App.tsx) and decodeBase64 + decodeAudioData
(src/components/GameInterface.tsx) share the same pipeline: atob, copy to
a byte buffer, reinterpret the buffer as little-endian signed 16-bit
integers (the Int16Array constructor throws a RangeError when the byte
length is odd), allocate a one-channel 24000 Hz buffer
(ctx.createBuffer throws a NotSupportedError when the frame count is
zero), and fill it with each integer divided by 32768.0. -/

/-- Little-endian signed 16-bit value of two bytes, as Int16Array reads
them. -/
def int16OfBytes (b0 b1 : Nat) : Int :=
  if b0 + 256 * b1 < 32768 then (b0 + 256 * b1 : Int) else (b0 + 256 * b1 : Int) - 65536

/-- The Int16Array reinterpretation step: none exactly when the byte
count is odd (the constructor throws), otherwise the 16-bit values. -/
def bytesToInt16 : List Nat → Option (List Int)
  | [] => some []
  | [_] => none
  | b0 :: b1 :: rest =>
      match bytesToInt16 rest with
      | some vs => some (int16OfBytes b0 b1 :: vs)
      | none => none

/-- The scale step of both decoders: channelData i = dataInt16 i / 32768.0
(exact in binary floating point, modelled as the exact rational). -/
def sampleOfInt16 (v : Int) : ℚ := (v : ℚ) / 32768

/-- decodeAudioData (src/components/GameInterface.tsx): bytes to a mono
24 kHz sample buffer; none when Int16Array or createBuffer throws. -/
def decodeAudioData (data : List Nat) : Option (List ℚ) :=
  match bytesToInt16 data with
  | none => none
  | some vs => if vs.length = 0 then none else some (vs.map sampleOfInt16)

/-- decodeBase64 (src/components/GameInterface.tsx): atob plus a byte
copy. -/
def decodeBase64 (base64 : List Char) : Option (List Nat) := b64DecodeGroups base64

/-- decodeAudioForVideo (src/App.tsx): atob, Int16Array reinterpretation,
createBuffer, scale by 1/32768. -/
def decodeAudioForVideo (base64 : List Char) : Option (List ℚ) :=
  match b64DecodeGroups base64 with
  | none => none
  | some bytes => decodeAudioData bytes

/-- The playAudio decode pipeline of the voice playback controller:
decodeBase64 then decodeAudioData, a failure in either step is caught. -/
def decodeVoiceClip (base64 : List Char) : Option (List ℚ) :=
  match decodeBase64 base64 with
  | none => none
  | some bytes => decodeAudioData bytes

/-- AudioBuffer.duration: frame count over the 24000 Hz sample rate. -/
def bufferDuration (samples : List ℚ) : ℚ := (samples.length : ℚ) / 24000

/-! ## Story log entries and the per-scene duration of the video renderer
(handleDownloadVideo in src/App.tsx) -/

/-- One story log entry: narrative text, optional scene image (a data
URI), optional narration clip (base64 raw PCM). The in-progress current
turn is carried in the same shape. -/
structure StoryEntry where
  narrative : List Char
  image : Option (List Char)
  audio : Option (List Char)
deriving DecidableEq

/-- The on-screen hold duration (milliseconds) the render loop computes
for one entry: duration starts at 3000; with narration audio that
decodes, buffer.duration * 1000 + 500; with narration audio that fails to
decode, the catch leaves the initial 3000; without audio,
max(3000, narrative.length * 100). -/
def sceneDuration (entry : StoryEntry) : ℚ :=
  match entry.audio with
  | some a =>
      match decodeAudioForVideo a with
      | some buffer => bufferDuration buffer * 1000 + 500
      | none => 3000
  | none => max 3000 ((entry.narrative.length : ℚ) * 100)

/-! ## Storybook exporter (generateStorybook in src/App.tsx)

fullStory appends the current turn to the story log and keeps the entries
whose narrative is truthy (non-empty). Each kept entry renders one
chapter-container div holding an img element when an image is present,
the narrative paragraph, and an embedded audio control when a narration
clip is present and pcmToWav does not throw on it. -/

/-- What one rendered section of the exported storybook contains. -/
structure BookSection where
  hasImage : Bool
  text : List Char
  hasAudioControl : Bool
deriving DecidableEq

/-- The filter of generateStorybook: story log plus current turn, entries
with empty narrative dropped. -/
def fullStory (storyLog : List StoryEntry) (current : StoryEntry) : List StoryEntry :=
  (storyLog ++ [current]).filter (fun s => !s.narrative.isEmpty)

/-- The rendered section of one entry: img element iff an image is present,
audio control iff a clip is present and its WAV conversion succeeds
(a pcmToWav failure is caught and leaves audioTag empty). -/
def renderSection (e : StoryEntry) : BookSection :=
  { hasImage := e.image.isSome
    text := e.narrative
    hasAudioControl :=
      match e.audio with
      | some a => (pcmToWav a 24000).isSome
      | none => false }

/-- generateStorybook: the ordered rendered sections of the exported
document. -/
def generateStorybook (storyLog : List StoryEntry) (current : StoryEntry) : List BookSection :=
  (fullStory storyLog current).map renderSection

/-! ## Voice playback controller
(the [currentAudio, voiceEnabled] effect, playAudio and toggleVoice in
src/components/GameInterface.tsx)

The controller is modelled as a state machine.  playing is the set of
narration sources currently producing sound (ids, in start order);
sourceRef mirrors voiceSourceRef.current; nextId numbers the sources ever
created.  An event either changes currentAudio (a turn change clearing or
replacing the clip, which re-runs the effect), toggles the voice button,
or is the natural end of a source firing its onended handler.

Two models are given.  voiceStep below is the serial semantics: each
fire-and-forget playAudio invocation settles before the next controller
event — the behaviour the browser exhibits while the output context is
running, where the only await of an invocation (the decode) settles as a
microtask before the next task can run an effect.  VoiceWorld further
below is the general semantics with the real suspension points of the
async playAudio made explicit, admitting the interleavings a suspended
context allows. -/

structure VoiceState where
  currentAudio : Option (List Char)
  voiceEnabled : Bool
  isPlayingVoice : Bool
  sourceRef : Option Nat
  playing : List Nat
  nextId : Nat
deriving DecidableEq

/-- voiceSourceRef.current.stop(): the referenced source stops sounding.
The try/catch around it makes a second stop harmless. -/
def stopSourceRef (s : VoiceState) : VoiceState :=
  { s with
    playing :=
      match s.sourceRef with
      | some i => s.playing.erase i
      | none => s.playing }

/-- One run of the effect body, preceded by the cleanup of the previous
effect run (React runs the returned cleanup, which stops
voiceSourceRef.current, before the next body).  Body: with no clip, stop
and clear the source and the speaking flag; with a clip but voice
disabled, return; otherwise playAudio: stop and disconnect the previous
source, decode the clip (failure caught, clearing the speaking flag),
then create, store and start a new source.  This is the serial
semantics: the whole playAudio invocation settles within the step; the
split at its awaits is runEffectW below. -/
def runVoiceEffect (s0 : VoiceState) : VoiceState :=
  let s := stopSourceRef s0
  match s.currentAudio with
  | none => { stopSourceRef s with sourceRef := none, isPlayingVoice := false }
  | some a =>
      if s.voiceEnabled then
        let s1 := stopSourceRef s
        match decodeVoiceClip a with
        | some _buffer =>
            { s1 with
              sourceRef := some s1.nextId
              playing := s1.nextId :: s1.playing
              isPlayingVoice := true
              nextId := s1.nextId + 1 }
        | none => { s1 with isPlayingVoice := false }
      else s

inductive VoiceEvent where
  | setAudio (a : Option (List Char))
  | toggleVoice
  | ended (i : Nat)
deriving DecidableEq

/-- One controller step.  setAudio changes currentAudio and (the
dependency changed) re-runs the effect.  toggleVoice: while speaking with
a live ref, stop it, clear the speaking flag and disable; otherwise flip
the flag; either branch changes voiceEnabled, so the effect re-runs.  A
natural end removes the source from the audible set and the onended
handler clears the speaking flag. -/
def voiceStep (s : VoiceState) : VoiceEvent → VoiceState
  | .setAudio a => runVoiceEffect { s with currentAudio := a }
  | .toggleVoice =>
      if s.isPlayingVoice && s.sourceRef.isSome then
        runVoiceEffect
          { stopSourceRef s with isPlayingVoice := false, voiceEnabled := false }
      else
        runVoiceEffect { s with voiceEnabled := !s.voiceEnabled }
  | .ended i => { s with playing := s.playing.erase i, isPlayingVoice := false }

/-- Initial controller state: no clip, voice enabled by default, nothing
playing, no source ever created. -/
def initVoice : VoiceState :=
  { currentAudio := none
    voiceEnabled := true
    isPlayingVoice := false
    sourceRef := none
    playing := []
    nextId := 0 }

/-- At most one narration source audible, and only the one the ref
holds. -/
def VoiceInv (s : VoiceState) : Prop :=
  s.playing = [] ∨ ∃ i, s.sourceRef = some i ∧ s.playing = [i]

/-! ## Voice playback with the real suspension points

playAudio is async and invoked fire-and-forget.  It suspends at
await ctx.resume() — taken whenever the output context is suspended,
which the autoplay policy makes it until a user gesture, since the
context is created from a media-arrival effect and not a gesture
handler — and at the awaited decodeAudioData call, which it always
reaches.  Its stop-previous-source runs after the resume await and
before the decode await; source creation, the ref store and
source.start() run after the decode await.  The refined model splits an
invocation at those awaits: a clip parked at the resume await, then its
decoded bytes parked at the decode await.  Promise continuations run
first-in first-out, so the scheduler events resumeStep and decodeStep
advance the oldest parked invocation. -/

structure VoiceWorld where
  currentAudio : Option (List Char)
  voiceEnabled : Bool
  isPlayingVoice : Bool
  sourceRef : Option Nat
  playing : List Nat
  resumeParked : List (List Char)
  decodeParked : List (List Nat)
  ctxSuspended : Bool
  nextId : Nat
deriving DecidableEq

/-- voiceSourceRef.current.stop() in the refined model. -/
def stopRefW (w : VoiceWorld) : VoiceWorld :=
  { w with
    playing :=
      match w.sourceRef with
      | some i => w.playing.erase i
      | none => w.playing }

/-- The synchronous chunk of playAudio between the resume await and the
decode await: stop and disconnect the previous source, then decodeBase64
(a throw is caught, clearing the speaking flag and ending the
invocation); on success the invocation parks at the decode await. -/
def runChunk1 (w0 : VoiceWorld) (clip : List Char) : VoiceWorld :=
  let w := stopRefW w0
  match b64DecodeGroups clip with
  | none => { w with isPlayingVoice := false }
  | some bytes => { w with decodeParked := w.decodeParked ++ [bytes] }

/-- The chunk of playAudio after the decode await: a rejected decode is
caught, clearing the speaking flag; otherwise create a source, store it
in the ref and start it.  Note no second stop happens here: the
stop-previous already ran before the decode await. -/
def runCompletion (w : VoiceWorld) (bytes : List Nat) : VoiceWorld :=
  match decodeAudioData bytes with
  | none => { w with isPlayingVoice := false }
  | some _buffer =>
      { w with
        sourceRef := some w.nextId
        playing := w.nextId :: w.playing
        isPlayingVoice := true
        nextId := w.nextId + 1 }

/-- One effect run in the refined model: cleanup stop, then the body; a
spawned playAudio runs synchronously up to its first await: with the
context suspended it parks at the resume await before touching the
previous source, otherwise it stops the previous source and parks at the
decode await. -/
def runEffectW (w0 : VoiceWorld) : VoiceWorld :=
  let w := stopRefW w0
  match w.currentAudio with
  | none => { stopRefW w with sourceRef := none, isPlayingVoice := false }
  | some a =>
      if w.voiceEnabled then
        if w.ctxSuspended then { w with resumeParked := w.resumeParked ++ [a] }
        else runChunk1 w a
      else w

inductive WorldEvent where
  | setAudio (a : Option (List Char))
  | toggleVoice
  | resumeStep
  | decodeStep
  | ended (i : Nat)
deriving DecidableEq

/-- One step of the refined controller.  setAudio and toggleVoice are as
in voiceStep; resumeStep is the context finishing its resume, which
leaves the context running and lets the oldest parked continuation run
its synchronous chunk; decodeStep is the oldest decode await
settling. -/
def worldStep (w : VoiceWorld) : WorldEvent → VoiceWorld
  | .setAudio a => runEffectW { w with currentAudio := a }
  | .toggleVoice =>
      if w.isPlayingVoice && w.sourceRef.isSome then
        runEffectW { stopRefW w with isPlayingVoice := false, voiceEnabled := false }
      else runEffectW { w with voiceEnabled := !w.voiceEnabled }
  | .resumeStep =>
      match w.resumeParked with
      | [] => w
      | a :: rest => runChunk1 { w with resumeParked := rest, ctxSuspended := false } a
  | .decodeStep =>
      match w.decodeParked with
      | [] => w
      | bytes :: rest => runCompletion { w with decodeParked := rest } bytes
  | .ended i => { w with playing := w.playing.erase i, isPlayingVoice := false }

/-- Run a sequence of events through the refined controller. -/
def worldRun (w : VoiceWorld) : List WorldEvent → VoiceWorld
  | [] => w
  | e :: es => worldRun (worldStep w e) es

/-- Initial refined state with the output context suspended, as the
autoplay policy leaves a context created outside a user gesture. -/
def initWorldSuspended : VoiceWorld :=
  { currentAudio := none
    voiceEnabled := true
    isPlayingVoice := false
    sourceRef := none
    playing := []
    resumeParked := []
    decodeParked := []
    ctxSuspended := true
    nextId := 0 }

/-! ## Ambient drone synthesizer (AmbientDrone in
src/components/GameInterface.tsx, duplicated in the exported storybook
script in src/App.tsx)

start() is guarded by isPlaying; it resumes a suspended context, tears
down stale nodes, creates four detuned voices (sine/triangle alternating)
each with a slow LFO, pushes all eight oscillators, and ramps the master
gain 0 to 0.15 over 3 s.  stop() is guarded by !isPlaying; it ramps the
gain to 0 over 2 s and arms a 2 s teardown timer.  Math.random() draws
are supplied as an explicit stream. -/

structure OscNode where
  id : Nat
  sine : Bool
  freq : ℚ
  detune : ℚ
deriving DecidableEq

inductive GainEvent where
  | cancelScheduled (t : ℚ)
  | setValue (v t : ℚ)
  | linearRampTo (v t : ℚ)
deriving DecidableEq

structure DroneState where
  ctxSuspended : Bool
  now : ℚ
  oscs : List OscNode
  gainSchedule : List GainEvent
  gainValue : ℚ
  isPlaying : Bool
  pendingStopNodes : Bool
  nextId : Nat
deriving DecidableEq

/-- One voice of the pad: the audible oscillator (type sine for even
voice index, triangle otherwise; detune = random * 10 - 5 cents) and its
amplitude LFO (frequency 0.1 + random * 0.2). -/
def mkVoiceNodes (base : Nat) (sineOsc : Bool) (f rDetune rLfo : ℚ) : List OscNode :=
  [{ id := base, sine := sineOsc, freq := f, detune := rDetune * 10 - 5 },
   { id := base + 1, sine := true, freq := 1 / 10 + rLfo * (1 / 5), detune := 0 }]

/-- stopNodes(): stop and disconnect every tracked oscillator, empty the
list. -/
def droneStopNodes (s : DroneState) : DroneState := { s with oscs := [] }

/-- start(): no-op while playing, else resume the context, clear stale
nodes, build the four voices at 110, 130.81, 164.81, 196 Hz, and ramp the
master gain from 0 to 0.15 over three seconds. -/
def droneStart (rand : Nat → ℚ) (s : DroneState) : DroneState :=
  if s.isPlaying then s
  else
    let s := droneStopNodes { s with ctxSuspended := false }
    let b := s.nextId
    { s with
      oscs :=
        mkVoiceNodes b true 110 (rand 0) (rand 1) ++
        mkVoiceNodes (b + 2) false (13081 / 100) (rand 2) (rand 3) ++
        mkVoiceNodes (b + 4) true (16481 / 100) (rand 4) (rand 5) ++
        mkVoiceNodes (b + 6) false 196 (rand 6) (rand 7)
      gainSchedule :=
        s.gainSchedule ++
          [.cancelScheduled s.now, .setValue 0 s.now, .linearRampTo (15 / 100) (s.now + 3)]
      gainValue := 0
      isPlaying := true
      nextId := b + 8 }

/-- stop(): no-op while stopped, else ramp the master gain to silence over
two seconds and arm the delayed teardown of the nodes. -/
def droneStop (s : DroneState) : DroneState :=
  if s.isPlaying then
    { s with
      gainSchedule :=
        s.gainSchedule ++
          [.cancelScheduled s.now, .setValue s.gainValue s.now, .linearRampTo 0 (s.now + 2)]
      pendingStopNodes := true
      isPlaying := false }
  else s

/-- A fresh AmbientDrone: silent master gain, no oscillators, stopped. -/
def initDrone : DroneState :=
  { ctxSuspended := false
    now := 0
    oscs := []
    gainSchedule := []
    gainValue := 0
    isPlaying := false
    pendingStopNodes := false
    nextId := 0 }

/-! ## Helper lemmas -/

theorem b64Val_b64Char_fin : ∀ v : Fin 64, b64Val (b64Char v.val) = some v.val := by
  decide

theorem b64Val_b64Char (v : Nat) (h : v < 64) : b64Val (b64Char v) = some v :=
  b64Val_b64Char_fin ⟨v, h⟩

theorem b64Char_ne_pad_fin : ∀ v : Fin 64, b64Char v.val ≠ '=' := by
  decide

theorem b64Char_ne_pad (v : Nat) (h : v < 64) : ¬ b64Char v = '=' :=
  b64Char_ne_pad_fin ⟨v, h⟩

/-- Base64 is lossless: atob of btoa returns the original bytes. -/
theorem b64_decode_encode (bs : List Nat) (h : ∀ b ∈ bs, b < 256) :
    b64DecodeGroups (b64EncodeBytes bs) = some bs := by
  induction bs using b64EncodeBytes.induct with
  | case1 => rfl
  | case2 b0 =>
      have h0 : b0 < 256 := h b0 (by simp)
      simp only [b64EncodeBytes, b64DecodeGroups]
      rw [b64Val_b64Char (b0 / 4) (by omega), b64Val_b64Char (b0 % 4 * 16) (by omega)]
      simp only [if_true, and_self, Option.some.injEq, List.cons.injEq, and_true]
      omega
  | case3 b0 b1 =>
      have h0 : b0 < 256 := h b0 (by simp)
      have h1 : b1 < 256 := h b1 (by simp)
      have e0 := b64Val_b64Char (b0 / 4) (by omega)
      have e1 := b64Val_b64Char (b0 % 4 * 16 + b1 / 16) (by omega)
      have e2 := b64Val_b64Char (b1 % 16 * 4) (by omega)
      have n2 : ¬ b64Char (b1 % 16 * 4) = '=' := b64Char_ne_pad _ (by omega)
      simp only [b64EncodeBytes, b64DecodeGroups, e0, e1, e2, n2, if_false, if_true,
        ite_false, ite_true, and_self, Option.some.injEq, List.cons.injEq, and_true,
        eq_self_iff_true]
      omega
  | case4 b0 b1 b2 rest ih =>
      have h0 : b0 < 256 := h b0 (by simp)
      have h1 : b1 < 256 := h b1 (by simp)
      have h2 : b2 < 256 := h b2 (by simp)
      have hrest : ∀ b ∈ rest, b < 256 := fun b hb => h b (by simp [hb])
      have e0 := b64Val_b64Char (b0 / 4) (by omega)
      have e1 := b64Val_b64Char (b0 % 4 * 16 + b1 / 16) (by omega)
      have e2 := b64Val_b64Char (b1 % 16 * 4 + b2 / 64) (by omega)
      have e3 := b64Val_b64Char (b2 % 64) (by omega)
      have n2 : ¬ b64Char (b1 % 16 * 4 + b2 / 64) = '=' := b64Char_ne_pad _ (by omega)
      have n3 : ¬ b64Char (b2 % 64) = '=' := b64Char_ne_pad _ (by omega)
      simp only [b64EncodeBytes, b64DecodeGroups, e0, e1, e2, e3, n2, n3, ih hrest,
        if_false, if_true, ite_false, ite_true, Option.some.injEq, List.cons.injEq,
        and_true, eq_self_iff_true]
      omega

theorem wavHeader_length (len r : Nat) : (wavHeader len r).length = 44 := rfl

theorem wavHeader_lt (len r : Nat) : ∀ b ∈ wavHeader len r, b < 256 := by
  intro b hb
  simp only [wavHeader, List.mem_cons, List.not_mem_nil, or_false] at hb
  rcases hb with rfl | rfl | rfl | rfl | rfl | rfl | rfl | rfl | rfl | rfl | rfl | rfl |
    rfl | rfl | rfl | rfl | rfl | rfl | rfl | rfl | rfl | rfl | rfl | rfl | rfl | rfl |
    rfl | rfl | rfl | rfl | rfl | rfl | rfl | rfl | rfl | rfl | rfl | rfl | rfl | rfl |
    rfl | rfl | rfl | rfl <;> omega

theorem leNat_quad (v : Nat) (h : v < 4294967296) :
    leNat [v % 256, v / 256 % 256, v / 65536 % 256, v / 16777216 % 256] = v := by
  simp only [leNat]
  omega

theorem leNat_pair (v : Nat) (h : v < 65536) : leNat [v % 256, v / 256 % 256] = v := by
  simp only [leNat]
  omega


/-! ## The claims -/

/-- C1: encoding a PCM byte sequence with pcmToWav and reading back the
data sub-chunk of the produced WAV (the bytes after the 44-byte header) yields
exactly the original bytes; the base64 re-encoding is lossless and the
payload is appended unmodified after the header. -/
theorem wav_pcm_roundtrip (bs : List Nat) (r : Nat) (hb : ∀ b ∈ bs, b < 256) :
    ∃ wav, pcmToWav (b64EncodeBytes bs) r = some wav ∧
      b64DecodeGroups wav = some (wavHeader bs.length r ++ bs) ∧
      (wavHeader bs.length r ++ bs).drop 44 = bs := by
  have hall : ∀ b ∈ wavHeader bs.length r ++ bs, b < 256 := by
    intro b hb2
    rcases List.mem_append.mp hb2 with h1 | h1
    · exact wavHeader_lt _ _ b h1
    · exact hb b h1
  refine ⟨b64EncodeBytes (wavHeader bs.length r ++ bs), ?_, ?_, ?_⟩
  · simp [pcmToWav, b64_decode_encode bs hb]
  · exact b64_decode_encode _ hall
  · have h44 : (wavHeader bs.length r).length = 44 := rfl
    rw [← h44, List.drop_left]

theorem wav_pcm_roundtrip_witness :
    (∀ b ∈ [72, 0, 255], b < 256) ∧
    ∃ wav, pcmToWav (b64EncodeBytes [72, 0, 255]) 24000 = some wav ∧
      b64DecodeGroups wav = some (wavHeader (List.length [72, 0, 255]) 24000 ++ [72, 0, 255]) ∧
      (wavHeader (List.length [72, 0, 255]) 24000 ++ [72, 0, 255]).drop 44 = [72, 0, 255] :=
  ⟨by decide, wav_pcm_roundtrip [72, 0, 255] 24000 (by decide)⟩

/-- C2: for decoded byte length len and sample rate r, pcmToWav emits a
44 + len byte buffer: RIFF tag, little-endian 36 + len, WAVE and fmt tags,
fmt size 16, PCM code 1, one channel, sample rate r, byte rate r*2, block
align 2, 16 bits per sample, data tag, little-endian len, then the payload. -/
theorem wav_header_canonical (bs : List Nat) (r : Nat) (hb : ∀ b ∈ bs, b < 256)
    (hlen : 36 + bs.length < 4294967296) (hr : r * 2 < 4294967296) :
    pcmToWav (b64EncodeBytes bs) r
      = some (b64EncodeBytes (wavHeader bs.length r ++ bs)) ∧
    (wavHeader bs.length r ++ bs).length = 44 + bs.length ∧
    (wavHeader bs.length r ++ bs).take 4 = asciiBytes ("RIFF") ∧
    leNat (((wavHeader bs.length r ++ bs).drop 4).take 4) = 36 + bs.length ∧
    ((wavHeader bs.length r ++ bs).drop 8).take 4 = asciiBytes ("WAVE") ∧
    ((wavHeader bs.length r ++ bs).drop 12).take 4 = asciiBytes ("fmt ") ∧
    leNat (((wavHeader bs.length r ++ bs).drop 16).take 4) = 16 ∧
    leNat (((wavHeader bs.length r ++ bs).drop 20).take 2) = 1 ∧
    leNat (((wavHeader bs.length r ++ bs).drop 22).take 2) = 1 ∧
    leNat (((wavHeader bs.length r ++ bs).drop 24).take 4) = r ∧
    leNat (((wavHeader bs.length r ++ bs).drop 28).take 4) = r * 2 ∧
    leNat (((wavHeader bs.length r ++ bs).drop 32).take 2) = 2 ∧
    leNat (((wavHeader bs.length r ++ bs).drop 34).take 2) = 16 ∧
    ((wavHeader bs.length r ++ bs).drop 36).take 4 = asciiBytes ("data") ∧
    leNat (((wavHeader bs.length r ++ bs).drop 40).take 4) = bs.length := by
  refine ⟨by simp [pcmToWav, b64_decode_encode bs hb],
    by rw [List.length_append, wavHeader_length], rfl,
    leNat_quad _ hlen, rfl, rfl, rfl, rfl, rfl,
    leNat_quad _ (by omega), leNat_quad _ hr,
    rfl, rfl, rfl, leNat_quad _ (by omega)⟩

theorem wav_header_canonical_witness :
    ((∀ b ∈ [1, 2], b < 256) ∧ 36 + List.length [1, 2] < 4294967296 ∧
      24000 * 2 < 4294967296) ∧
    (pcmToWav (b64EncodeBytes [1, 2]) 24000
      = some (b64EncodeBytes (wavHeader (List.length [1, 2]) 24000 ++ [1, 2])) ∧
    (wavHeader (List.length [1, 2]) 24000 ++ [1, 2]).length = 44 + List.length [1, 2] ∧
    (wavHeader (List.length [1, 2]) 24000 ++ [1, 2]).take 4 = asciiBytes ("RIFF") ∧
    leNat (((wavHeader (List.length [1, 2]) 24000 ++ [1, 2]).drop 4).take 4)
      = 36 + List.length [1, 2] ∧
    ((wavHeader (List.length [1, 2]) 24000 ++ [1, 2]).drop 8).take 4 = asciiBytes ("WAVE") ∧
    ((wavHeader (List.length [1, 2]) 24000 ++ [1, 2]).drop 12).take 4 = asciiBytes ("fmt ") ∧
    leNat (((wavHeader (List.length [1, 2]) 24000 ++ [1, 2]).drop 16).take 4) = 16 ∧
    leNat (((wavHeader (List.length [1, 2]) 24000 ++ [1, 2]).drop 20).take 2) = 1 ∧
    leNat (((wavHeader (List.length [1, 2]) 24000 ++ [1, 2]).drop 22).take 2) = 1 ∧
    leNat (((wavHeader (List.length [1, 2]) 24000 ++ [1, 2]).drop 24).take 4) = 24000 ∧
    leNat (((wavHeader (List.length [1, 2]) 24000 ++ [1, 2]).drop 28).take 4) = 24000 * 2 ∧
    leNat (((wavHeader (List.length [1, 2]) 24000 ++ [1, 2]).drop 32).take 2) = 2 ∧
    leNat (((wavHeader (List.length [1, 2]) 24000 ++ [1, 2]).drop 34).take 2) = 16 ∧
    ((wavHeader (List.length [1, 2]) 24000 ++ [1, 2]).drop 36).take 4 = asciiBytes ("data") ∧
    leNat (((wavHeader (List.length [1, 2]) 24000 ++ [1, 2]).drop 40).take 4)
      = List.length [1, 2]) :=
  ⟨⟨by decide, by decide, by decide⟩,
    wav_header_canonical [1, 2] 24000 (by decide) (by decide) (by decide)⟩

theorem bytesToInt16_parity (bs : List Nat) :
    (bs.length % 2 = 1 → bytesToInt16 bs = none) ∧
    (bs.length % 2 = 0 → ∃ vs, bytesToInt16 bs = some vs ∧ 2 * vs.length = bs.length) := by
  induction bs using bytesToInt16.induct with
  | case1 => exact ⟨by simp, fun _ => ⟨[], rfl, rfl⟩⟩
  | case2 b => exact ⟨fun _ => rfl, fun hc => absurd hc (by simp)⟩
  | case3 b0 b1 rest vs hvs ih =>
      constructor
      · intro hodd
        have hro : rest.length % 2 = 1 := by
          simp only [List.length_cons] at hodd
          omega
        rw [ih.1 hro] at hvs
        cases hvs
      · intro _
        obtain ⟨vt, hvt, hl⟩ := ih.2 (by
          have := (ih.1).mt
          rcases Nat.mod_two_eq_zero_or_one rest.length with h | h
          · exact h
          · rw [ih.1 h] at hvs; cases hvs)
        refine ⟨int16OfBytes b0 b1 :: vt, by simp [bytesToInt16, hvt], ?_⟩
        simp only [List.length_cons]
        omega
  | case4 b0 b1 rest hnone ih =>
      constructor
      · intro _
        simp [bytesToInt16, hnone]
      · intro heven
        have hre : rest.length % 2 = 0 := by
          simp only [List.length_cons] at heven
          omega
        obtain ⟨vs, hvs, hl⟩ := ih.2 hre
        rw [hvs] at hnone
        cases hnone

theorem bytesToInt16_getD (bs : List Nat) (vs : List Int)
    (h : bytesToInt16 bs = some vs) :
    ∀ i, vs.getD i 0 = int16OfBytes (bs.getD (2 * i) 0) (bs.getD (2 * i + 1) 0) := by
  induction bs using bytesToInt16.induct generalizing vs with
  | case1 =>
      simp only [bytesToInt16, Option.some.injEq] at h
      subst h
      intro i
      simp [List.getD_nil, int16OfBytes]
  | case2 b => simp [bytesToInt16] at h
  | case3 b0 b1 rest vt hr ih =>
      simp only [bytesToInt16, hr, Option.some.injEq] at h
      subst h
      intro i
      cases i with
      | zero => simp [List.getD_cons_zero, List.getD_cons_succ]
      | succ j =>
          have e1 : 2 * (j + 1) = 2 * j + 1 + 1 := by ring
          rw [List.getD_cons_succ, e1]
          simp only [List.getD_cons_succ]
          exact ih vt hr j
  | case4 b0 b1 rest hnone ih => simp [bytesToInt16, hnone] at h

theorem bytesToInt16_replicate_zero :
    ∀ n, bytesToInt16 (List.replicate (2 * n) 0) = some (List.replicate n (0 : Int)) := by
  intro n
  induction n with
  | zero => rfl
  | succ k ih =>
      have h2 : 2 * (k + 1) = 2 * k + 1 + 1 := by ring
      rw [h2, List.replicate_succ, List.replicate_succ, List.replicate_succ]
      simp [bytesToInt16, ih, int16OfBytes]

theorem sampleOfInt16_zero : sampleOfInt16 0 = 0 := by
  simp [sampleOfInt16]

theorem getD_map_sampleOfInt16 (vs : List Int) :
    ∀ i, (vs.map sampleOfInt16).getD i 0 = sampleOfInt16 (vs.getD i 0) := by
  induction vs with
  | nil => intro i; simp [List.getD_nil, sampleOfInt16]
  | cons v t ih =>
      intro i
      cases i with
      | zero => simp
      | succ j => simpa using ih j

/-- C3 (amended: the decoded byte count must be positive, N ≥ 1; on the
empty payload the decoders throw at createBuffer): a well-formed base64
input decoding to 2N bytes yields, on both decode paths, a single-channel
buffer of exactly N samples at 24000 Hz whose sample i is the i-th
little-endian signed 16-bit integer divided by 32768.0; the all-zero
input of 2N bytes decodes to N zero samples, and N = 24000 gives a
buffer of duration exactly 1 second. -/
theorem pcm_decoder_scale_law (b64 : List Char) (bs : List Nat) (N : Nat)
    (hdec : b64DecodeGroups b64 = some bs) (hlen : bs.length = 2 * N) (hpos : 0 < N) :
    ∃ samples : List ℚ,
      decodeAudioForVideo b64 = some samples ∧
      decodeAudioData bs = some samples ∧
      samples.length = N ∧
      (∀ i, samples.getD i 0
        = sampleOfInt16 (int16OfBytes (bs.getD (2 * i) 0) (bs.getD (2 * i + 1) 0))) ∧
      (bs = List.replicate (2 * N) 0 → samples = List.replicate N 0) ∧
      (N = 24000 → bufferDuration samples = 1) := by
  obtain ⟨vs, hvs, hvl⟩ := (bytesToInt16_parity bs).2 (by omega)
  have hNl : vs.length = N := by omega
  have hne : ¬ vs.length = 0 := by omega
  have hdata : decodeAudioData bs = some (vs.map sampleOfInt16) := by
    simp [decodeAudioData, hvs, hne]
  refine ⟨vs.map sampleOfInt16, by simp [decodeAudioForVideo, hdec, hdata], hdata,
    by simp [hNl], fun i => by rw [getD_map_sampleOfInt16, bytesToInt16_getD bs vs hvs i],
    ?_, ?_⟩
  · intro hz
    subst hz
    rw [bytesToInt16_replicate_zero N] at hvs
    have hv0 : vs = List.replicate N (0 : Int) := by
      exact (Option.some.injEq _ _).mp hvs.symm
    subst hv0
    simp [List.map_replicate, sampleOfInt16_zero]
  · intro h24
    simp [bufferDuration, hNl, h24]

/-- C3 counterexample: the empty base64 input is well formed and decodes
to 0 = 2 * 0 bytes, yet both decoders signal an error (createBuffer
rejects a zero-length buffer) instead of returning a 0-sample buffer. -/
theorem pcm_decoder_empty_input :
    b64DecodeGroups [] = some [] ∧
    decodeAudioForVideo [] = none ∧ decodeAudioData [] = none :=
  ⟨rfl, rfl, rfl⟩

theorem pcm_decoder_scale_law_witness :
    (b64DecodeGroups ['A', 'A', 'A', '='] = some [0, 0] ∧
      List.length [0, 0] = 2 * 1 ∧ 0 < 1) ∧
    (∃ samples : List ℚ,
      decodeAudioForVideo ['A', 'A', 'A', '='] = some samples ∧
      decodeAudioData [0, 0] = some samples ∧
      samples.length = 1 ∧
      (∀ i, samples.getD i 0
        = sampleOfInt16 (int16OfBytes (List.getD [0, 0] (2 * i) 0)
            (List.getD [0, 0] (2 * i + 1) 0))) ∧
      ([0, 0] = List.replicate (2 * 1) 0 → samples = List.replicate 1 0) ∧
      (1 = 24000 → bufferDuration samples = 1)) :=
  ⟨⟨by decide, by decide, by decide⟩,
    pcm_decoder_scale_law ['A', 'A', 'A', '='] [0, 0] 1 (by decide) (by decide) (by decide)⟩

/-- C4: a scene whose narration decodes to a buffer of duration D seconds
is held for D * 1000 + 500 milliseconds; a scene without narration audio
is held for max(3000, 100 * narrative character count) milliseconds. -/
theorem scene_duration_law (entry : StoryEntry) :
    (∀ a buffer, entry.audio = some a → decodeAudioForVideo a = some buffer →
      sceneDuration entry = bufferDuration buffer * 1000 + 500) ∧
    (entry.audio = none →
      sceneDuration entry = max 3000 (100 * (entry.narrative.length : ℚ))) := by
  constructor
  · intro a buffer ha hd
    simp [sceneDuration, ha, hd]
  · intro ha
    simp [sceneDuration, ha, mul_comm]

theorem scene_duration_law_witness :
    ((StoryEntry.mk [] none (some ['A', 'A', 'A', '='])).audio = some ['A', 'A', 'A', '='] ∧
      decodeAudioForVideo ['A', 'A', 'A', '=']
        = some [sampleOfInt16 (int16OfBytes 0 0)] ∧
      sceneDuration (StoryEntry.mk [] none (some ['A', 'A', 'A', '=']))
        = bufferDuration [sampleOfInt16 (int16OfBytes 0 0)] * 1000 + 500) ∧
    ((StoryEntry.mk ['a'] none none).audio = none ∧
      sceneDuration (StoryEntry.mk ['a'] none none)
        = max 3000 (100 * (((StoryEntry.mk ['a'] none none).narrative.length : ℚ)))) :=
  ⟨⟨rfl, rfl,
      (scene_duration_law _).1 ['A', 'A', 'A', '=']
        [sampleOfInt16 (int16OfBytes 0 0)] rfl rfl⟩,
    ⟨rfl, (scene_duration_law _).2 rfl⟩⟩

/-- C10: an odd decoded byte count makes the Int16Array reinterpretation
throw in both decode paths, so the error branch is taken rather than a
truncated or padded buffer; an even positive byte count never throws at
that step and yields exactly half as many samples. -/
theorem int16_reinterpretation (bs : List Nat) :
    (bs.length % 2 = 1 →
      bytesToInt16 bs = none ∧ decodeAudioData bs = none ∧
      (∀ b64, b64DecodeGroups b64 = some bs → decodeAudioForVideo b64 = none)) ∧
    (bs.length % 2 = 0 →
      ∃ vs, bytesToInt16 bs = some vs ∧ vs.length = bs.length / 2) ∧
    (bs.length % 2 = 0 → 0 < bs.length →
      ∃ samples, decodeAudioData bs = some samples ∧
        samples.length = bs.length / 2 ∧
        (∀ b64, b64DecodeGroups b64 = some bs →
          decodeAudioForVideo b64 = some samples)) := by
  refine ⟨?_, ?_, ?_⟩
  · intro hodd
    have hn := (bytesToInt16_parity bs).1 hodd
    have hd : decodeAudioData bs = none := by simp [decodeAudioData, hn]
    exact ⟨hn, hd, fun b64 hb => by simp [decodeAudioForVideo, hb, hd]⟩
  · intro heven
    obtain ⟨vs, hvs, hl⟩ := (bytesToInt16_parity bs).2 heven
    exact ⟨vs, hvs, by omega⟩
  · intro heven hpos
    obtain ⟨vs, hvs, hl⟩ := (bytesToInt16_parity bs).2 heven
    have hne : ¬ vs.length = 0 := by omega
    have hd : decodeAudioData bs = some (vs.map sampleOfInt16) := by
      simp [decodeAudioData, hvs, hne]
    exact ⟨vs.map sampleOfInt16, hd, by simp; omega,
      fun b64 hb => by simp [decodeAudioForVideo, hb, hd]⟩

theorem int16_reinterpretation_witness :
    (List.length [7] % 2 = 1 ∧
      bytesToInt16 [7] = none ∧ decodeAudioData [7] = none) ∧
    (List.length [0, 1, 2, 3] % 2 = 0 ∧ 0 < List.length [0, 1, 2, 3] ∧
      ∃ samples, decodeAudioData [0, 1, 2, 3] = some samples ∧
        samples.length = List.length [0, 1, 2, 3] / 2 ∧
        (∀ b64, b64DecodeGroups b64 = some [0, 1, 2, 3] →
          decodeAudioForVideo b64 = some samples)) :=
  ⟨⟨by decide,
      ((int16_reinterpretation [7]).1 (by decide)).1,
      ((int16_reinterpretation [7]).1 (by decide)).2.1⟩,
    ⟨by decide, by decide, (int16_reinterpretation [0, 1, 2, 3]).2.2 (by decide) (by decide)⟩⟩

/-- C5: the storybook exporter renders one section per entry (story log
plus the in-progress current turn appended last) whose narrative is
non-empty, in log order, and entries with empty narrative never appear;
the two-entry scenario produces exactly two sections in order, the first
with an image and an embedded audio control, the second with neither. -/
theorem storybook_sections :
    (∀ storyLog current s, s ∈ generateStorybook storyLog current → ¬ s.text = []) ∧
    (∀ imgA clipA, (pcmToWav clipA 24000).isSome = true →
      generateStorybook
        [StoryEntry.mk (("You wake in a cave.").toList) (some imgA) (some clipA),
         StoryEntry.mk (("You flee.").toList) none none]
        (StoryEntry.mk [] none none)
      = [BookSection.mk true (("You wake in a cave.").toList) true,
         BookSection.mk false (("You flee.").toList) false]) := by
  constructor
  · intro storyLog current s hs
    simp only [generateStorybook, fullStory, List.mem_map, List.mem_filter] at hs
    obtain ⟨e, ⟨_, hne⟩, rfl⟩ := hs
    simpa [renderSection, List.isEmpty_iff] using hne
  · intro imgA clipA h
    simp [generateStorybook, fullStory, renderSection, h]

theorem storybook_sections_witness :
    ((pcmToWav (b64EncodeBytes [0, 0]) 24000).isSome = true ∧
      generateStorybook
        [StoryEntry.mk (("You wake in a cave.").toList)
            (some (("imgA").toList)) (some (b64EncodeBytes [0, 0])),
         StoryEntry.mk (("You flee.").toList) none none]
        (StoryEntry.mk [] none none)
      = [BookSection.mk true (("You wake in a cave.").toList) true,
         BookSection.mk false (("You flee.").toList) false]) ∧
    ¬ (BookSection.mk true (("You wake in a cave.").toList) true).text = [] :=
  ⟨⟨by decide,
      storybook_sections.2 (("imgA").toList) (b64EncodeBytes [0, 0]) (by decide)⟩,
    storybook_sections.1
      [StoryEntry.mk (("You wake in a cave.").toList)
          (some (("imgA").toList)) (some (b64EncodeBytes [0, 0])),
       StoryEntry.mk (("You flee.").toList) none none]
      (StoryEntry.mk [] none none)
      (BookSection.mk true (("You wake in a cave.").toList) true)
      (by
        rw [storybook_sections.2 (("imgA").toList) (b64EncodeBytes [0, 0]) (by decide)]
        simp)⟩

/-- C9: malformed base64 and the empty input make the PCM decoders signal
a decode error rather than return a buffer; the video renderer then keeps
the default 3000 ms scene duration and continues, and the voice playback
controller clears the speaking flag. -/
theorem decode_failure_handling :
    (∀ b64, b64DecodeGroups b64 = none →
      decodeAudioForVideo b64 = none ∧ decodeVoiceClip b64 = none) ∧
    (decodeAudioForVideo [] = none ∧ decodeVoiceClip [] = none) ∧
    (∀ entry a, entry.audio = some a → decodeAudioForVideo a = none →
      sceneDuration entry = 3000) ∧
    (∀ s a, s.currentAudio = some a → s.voiceEnabled = true →
      decodeVoiceClip a = none → (runVoiceEffect s).isPlayingVoice = false) := by
  refine ⟨?_, ⟨rfl, rfl⟩, ?_, ?_⟩
  · intro b64 hb
    exact ⟨by simp [decodeAudioForVideo, hb], by simp [decodeVoiceClip, decodeBase64, hb]⟩
  · intro entry a ha hd
    simp [sceneDuration, ha, hd]
  · intro s a ha he hd
    simp [runVoiceEffect, stopSourceRef, ha, he, hd]

theorem decode_failure_handling_witness :
    (b64DecodeGroups ['!'] = none ∧
      decodeAudioForVideo ['!'] = none ∧ decodeVoiceClip ['!'] = none) ∧
    ((StoryEntry.mk ['x'] none (some ['!'])).audio = some ['!'] ∧
      sceneDuration (StoryEntry.mk ['x'] none (some ['!'])) = 3000) ∧
    ((VoiceState.mk (some ['!']) true true (some 0) [0] 1).currentAudio = some ['!'] ∧
      (runVoiceEffect (VoiceState.mk (some ['!']) true true (some 0) [0] 1)).isPlayingVoice
        = false) :=
  ⟨⟨by decide, (decode_failure_handling.1 ['!'] (by decide)).1,
      (decode_failure_handling.1 ['!'] (by decide)).2⟩,
    ⟨rfl, decode_failure_handling.2.2.1 (StoryEntry.mk ['x'] none (some ['!'])) ['!'] rfl
        (decode_failure_handling.1 ['!'] (by decide)).1⟩,
    ⟨rfl, decode_failure_handling.2.2.2 (VoiceState.mk (some ['!']) true true (some 0) [0] 1)
        ['!'] rfl rfl (decode_failure_handling.1 ['!'] (by decide)).2⟩⟩

@[simp] theorem stopSourceRef_currentAudio (s : VoiceState) :
    (stopSourceRef s).currentAudio = s.currentAudio := rfl

@[simp] theorem stopSourceRef_voiceEnabled (s : VoiceState) :
    (stopSourceRef s).voiceEnabled = s.voiceEnabled := rfl

@[simp] theorem stopSourceRef_isPlayingVoice (s : VoiceState) :
    (stopSourceRef s).isPlayingVoice = s.isPlayingVoice := rfl

@[simp] theorem stopSourceRef_sourceRef (s : VoiceState) :
    (stopSourceRef s).sourceRef = s.sourceRef := rfl

@[simp] theorem stopSourceRef_nextId (s : VoiceState) :
    (stopSourceRef s).nextId = s.nextId := rfl

theorem stopSourceRef_playing (s : VoiceState) (h : VoiceInv s) :
    (stopSourceRef s).playing = [] := by
  rcases h with h | ⟨i, hi, hp⟩
  · cases hs : s.sourceRef <;> simp [stopSourceRef, hs, h]
  · simp [stopSourceRef, hi, hp]

/-- C6: the code violates playback exclusivity, which the specification
requires (no overlap between narration is permitted; clearing the clip
immediately stops in-flight playback).  With the output context
suspended, clip one arrives and its playAudio parks at the resume await;
the turn change clears the clip; clip two arrives and a second
invocation parks.  When the context resumes, the two continuations run
first-in first-out: each stops the source ref before either has stored
a source, then both decode awaits settle and both sources start — the
final state has the two narration sources 0 and 1 audible at once.  The
shorter trace shows a source starting after the clip was cleared. -/
theorem voice_overlap_bug :
    (worldRun initWorldSuspended
      [.setAudio (some ['A', 'A', 'A', '=']), .setAudio none,
       .setAudio (some ['A', 'A', 'E', '=']), .resumeStep, .resumeStep,
       .decodeStep, .decodeStep]).playing = [1, 0] ∧
    (worldRun initWorldSuspended
      [.setAudio (some ['A', 'A', 'A', '=']), .setAudio none,
       .resumeStep, .decodeStep]).currentAudio = none ∧
    ¬ (worldRun initWorldSuspended
      [.setAudio (some ['A', 'A', 'A', '=']), .setAudio none,
       .resumeStep, .decodeStep]).playing = [] :=
  ⟨rfl, rfl, by decide⟩

theorem voiceInv_same_playing (s t : VoiceState) (h : VoiceInv s)
    (hp : t.playing = s.playing) (hr : t.sourceRef = s.sourceRef) : VoiceInv t := by
  rcases h with h | ⟨i, hi, hpl⟩
  · exact Or.inl (hp.trans h)
  · exact Or.inr ⟨i, hr.trans hi, hp.trans hpl⟩

theorem runVoiceEffect_disabled (t : VoiceState) (hpl : t.playing = [])
    (he : t.voiceEnabled = false) (hip : t.isPlayingVoice = false) :
    (runVoiceEffect t).playing = [] ∧ (runVoiceEffect t).voiceEnabled = false ∧
    (runVoiceEffect t).isPlayingVoice = false := by
  have h1 : (stopSourceRef t).playing = [] := stopSourceRef_playing t (Or.inl hpl)
  have h3 : (stopSourceRef (stopSourceRef t)).playing = [] :=
    stopSourceRef_playing _ (Or.inl h1)
  simp only [runVoiceEffect]
  cases hca : (stopSourceRef t).currentAudio with
  | none => exact ⟨h3, he, rfl⟩
  | some a =>
      simp only [stopSourceRef_voiceEnabled, he, Bool.false_eq_true, if_false]
      simp [h1, he, hip]

theorem runVoiceEffect_plays (t : VoiceState) (a : List Char) (buf : List ℚ)
    (hca : t.currentAudio = some a) (he : t.voiceEnabled = true)
    (hd : decodeVoiceClip a = some buf) (hinv : VoiceInv t) :
    (runVoiceEffect t).isPlayingVoice = true ∧
    (runVoiceEffect t).playing = [t.nextId] ∧
    (runVoiceEffect t).sourceRef = some t.nextId ∧
    (runVoiceEffect t).currentAudio = some a := by
  have h1 := stopSourceRef_playing t hinv
  have h3 : (stopSourceRef (stopSourceRef t)).playing = [] :=
    stopSourceRef_playing _ (Or.inl h1)
  simp only [runVoiceEffect, stopSourceRef_currentAudio, hca, stopSourceRef_voiceEnabled,
    he, if_true, hd]
  simp [h3, hca]

/-- C7 counterexample: starting from the initial state, deliver a valid
clip (it starts speaking), toggle voice off (it stops), then toggle voice
back on: without any new clip arriving, the effect re-runs with the
still-current clip and starts a new source for it, so the enabled flag
does not merely "take effect for the next clip". -/
theorem voice_toggle_replay :
    (voiceStep (voiceStep (voiceStep initVoice
        (.setAudio (some ['A', 'A', 'A', '=']))) .toggleVoice) .toggleVoice).isPlayingVoice
      = true ∧
    (voiceStep (voiceStep (voiceStep initVoice
        (.setAudio (some ['A', 'A', 'A', '=']))) .toggleVoice) .toggleVoice).currentAudio
      = some ['A', 'A', 'A', '='] ∧
    ¬ (voiceStep (voiceStep (voiceStep initVoice
        (.setAudio (some ['A', 'A', 'A', '=']))) .toggleVoice) .toggleVoice).playing = [] ∧
    (voiceStep (voiceStep initVoice
        (.setAudio (some ['A', 'A', 'A', '=']))) .toggleVoice).playing = [] :=
  ⟨rfl, rfl, by decide, rfl⟩

/-- C7 (amended): toggling the enabled flag off while a clip is speaking
stops playback immediately, disables the voice and clears the speaking
flag; toggling it back on while the stopped clip is still current does
not leave it stopped until the next clip — the playback effect re-runs
and restarts the current clip from the beginning as a fresh source. -/
theorem voice_toggle_behavior (s : VoiceState) (h : VoiceInv s) :
    (s.isPlayingVoice = true → s.sourceRef.isSome = true →
      (voiceStep s .toggleVoice).playing = [] ∧
      (voiceStep s .toggleVoice).voiceEnabled = false ∧
      (voiceStep s .toggleVoice).isPlayingVoice = false) ∧
    (∀ a buf, s.isPlayingVoice = false → s.voiceEnabled = false →
      s.currentAudio = some a → decodeVoiceClip a = some buf →
      (voiceStep s .toggleVoice).isPlayingVoice = true ∧
      (voiceStep s .toggleVoice).playing = [s.nextId] ∧
      (voiceStep s .toggleVoice).currentAudio = some a) := by
  constructor
  · intro hp hsrc
    have hcond : (s.isPlayingVoice && s.sourceRef.isSome) = true := by
      simp [hp, hsrc]
    simp only [voiceStep, hcond, if_true]
    exact runVoiceEffect_disabled _ (stopSourceRef_playing s h) rfl rfl
  · intro a buf hip he hca hd
    have hcond : (s.isPlayingVoice && s.sourceRef.isSome) = false := by simp [hip]
    simp only [voiceStep, hcond, Bool.false_eq_true, if_false]
    have hres := runVoiceEffect_plays { s with voiceEnabled := !s.voiceEnabled } a buf
      hca (by simp [he]) hd (voiceInv_same_playing s _ h rfl rfl)
    exact ⟨hres.1, hres.2.1, hres.2.2.2⟩

theorem voice_toggle_behavior_witness :
    (VoiceInv (VoiceState.mk (some ['A', 'A', 'A', '=']) true true (some 0) [0] 1) ∧
      (voiceStep (VoiceState.mk (some ['A', 'A', 'A', '=']) true true (some 0) [0] 1)
          .toggleVoice).playing = [] ∧
      (voiceStep (VoiceState.mk (some ['A', 'A', 'A', '=']) true true (some 0) [0] 1)
          .toggleVoice).voiceEnabled = false ∧
      (voiceStep (VoiceState.mk (some ['A', 'A', 'A', '=']) true true (some 0) [0] 1)
          .toggleVoice).isPlayingVoice = false) ∧
    ((voiceStep (VoiceState.mk (some ['A', 'A', 'A', '=']) false false (some 0) [] 1)
          .toggleVoice).isPlayingVoice = true ∧
      (voiceStep (VoiceState.mk (some ['A', 'A', 'A', '=']) false false (some 0) [] 1)
          .toggleVoice).playing = [1] ∧
      (voiceStep (VoiceState.mk (some ['A', 'A', 'A', '=']) false false (some 0) [] 1)
          .toggleVoice).currentAudio = some ['A', 'A', 'A', '=']) :=
  ⟨⟨Or.inr ⟨0, rfl, rfl⟩,
      (voice_toggle_behavior _ (Or.inr ⟨0, rfl, rfl⟩)).1 rfl rfl⟩,
    (voice_toggle_behavior _ (Or.inl rfl)).2 ['A', 'A', 'A', '=']
      [sampleOfInt16 (int16OfBytes 0 0)] rfl rfl rfl rfl⟩

theorem droneStart_of_playing (r : Nat → ℚ) (s : DroneState) (h : s.isPlaying = true) :
    droneStart r s = s := by
  simp [droneStart, h]

theorem droneStop_of_stopped (s : DroneState) (h : s.isPlaying = false) :
    droneStop s = s := by
  simp [droneStop, h]

theorem droneStart_isPlaying (r : Nat → ℚ) (s : DroneState) :
    (droneStart r s).isPlaying = true := by
  by_cases h : s.isPlaying
  · simp [droneStart, h]
  · simp [droneStart, h, droneStopNodes]

theorem droneStop_isPlaying (s : DroneState) :
    (droneStop s).isPlaying = false := by
  by_cases h : s.isPlaying
  · simp [droneStop, h]
  · simp only [Bool.not_eq_true] at h
    rw [droneStop_of_stopped s h, h]

/-- C8: start() while already Playing is a no-op and stop() while Stopped
is a no-op, hence start();start() leaves the same synthesizer state (audio
graph, gain schedule, node set) as a single start(), and likewise for
stop();stop(). -/
theorem drone_start_stop_idempotent (s : DroneState) (r1 r2 : Nat → ℚ) :
    (s.isPlaying = true → droneStart r1 s = s) ∧
    (s.isPlaying = false → droneStop s = s) ∧
    droneStart r2 (droneStart r1 s) = droneStart r1 s ∧
    droneStop (droneStop s) = droneStop s := by
  refine ⟨droneStart_of_playing r1 s, droneStop_of_stopped s, ?_, ?_⟩
  · exact droneStart_of_playing r2 _ (droneStart_isPlaying r1 s)
  · exact droneStop_of_stopped _ (droneStop_isPlaying s)

theorem drone_start_stop_idempotent_witness :
    (initDrone.isPlaying = false ∧ droneStop initDrone = initDrone) ∧
    ((droneStart (fun _ => 0) initDrone).isPlaying = true ∧
      droneStart (fun _ => 0) (droneStart (fun _ => 0) initDrone)
        = droneStart (fun _ => 0) initDrone ∧
      droneStart (fun _ => 0) (droneStart (fun _ => 0) initDrone)
        = droneStart (fun _ => 0) initDrone ∧
      droneStop (droneStop initDrone) = droneStop initDrone) :=
  ⟨⟨rfl, (drone_start_stop_idempotent initDrone (fun _ => 0) (fun _ => 0)).2.1 rfl⟩,
    ⟨rfl,
      (drone_start_stop_idempotent initDrone (fun _ => 0) (fun _ => 0)).2.2.1,
      (drone_start_stop_idempotent
        (droneStart (fun _ => 0) initDrone) (fun _ => 0) (fun _ => 0)).1
        (droneStart_isPlaying (fun _ => 0) initDrone),
      (drone_start_stop_idempotent initDrone (fun _ => 0) (fun _ => 0)).2.2.2⟩⟩
